import Mathlib

/-!
Verification of the `ft5x06-tool` firmware update utility (src/ft5x06-tool.c).

The C program drives an FT5x06/FT5x16/FT5x26 touch controller over I²C.
We embed the protocol engine shallowly:

* An I²C transaction is a `Tx`: either a plain write of a byte list, or a
  combined write-then-read (write bytes, read length, response bytes).
* The chip and the bus are a deterministic oracle `Chip`.  Responses that the
  C code reads into `uint8_t` buffers are masked `% 256` at the point of
  delivery (an I²C wire carries bytes).  Read responses that can differ
  between successive calls of the same command are indexed by the attempt /
  packet / poll counter of the C control flow.  Results of `ioctl`-backed
  transfers are `Int` (negative = error), exactly where the C code consults
  them; where the C code discards the return value, the model does too.
* Loops of the C code (`for` with bounded iteration) are translated with an
  explicit fuel argument that is always called with enough fuel for the
  loop's actual bound, keeping every definition structurally recursive and
  hence evaluable by `decide`.
-/

/-- One I²C transaction as seen by the transport:
`wr bytes` is `ft5x06_i2c_write`, `rd wrbytes rdlen resp` is
`ft5x06_i2c_read` (combined write-then-read; `wrbytes = []` models the
pure-read case `wrlen = 0`). -/
inductive Tx where
  | wr (bytes : List Nat)
  | rd (wrbytes : List Nat) (rdlen : Nat) (resp : List Nat)
deriving Repr, DecidableEq

/-- `struct ft5x06_fw_update_info` (src/ft5x06-tool.c:99). -/
structure ft5x06_fw_update_info where
  chip_id : Nat
  fts_name : String
  tpd_max_points : Nat
  auto_clb : Nat
  delay_aa : Nat
  delay_55 : Nat
  upgrade_id_1 : Nat
  upgrade_id_2 : Nat
  delay_readid : Nat
  delay_erase_flash : Nat
  flash_offset : Nat
deriving Repr, DecidableEq, Inhabited

/-- The static per-variant table `ft5x06_fwu_info` (src/ft5x06-tool.c:117). -/
def ft5x06_fwu_info : List ft5x06_fw_update_info :=
  [⟨0x55, "ft5x06", 5, 1, 50, 30, 0x79, 0x03, 10, 2000, 0x0000⟩,
   ⟨0x0a, "ft5x16", 5, 1, 50, 30, 0x79, 0x07, 10, 1500, 0x0000⟩,
   ⟨0x54, "ft5x26", 5, 0, 4, 250, 0x54, 0x2c, 10, 3000, 0x1800⟩]

/-- `ft5x06_get_name` (src/ft5x06-tool.c:180): linear search, `none` = NULL. -/
def ft5x06_get_name (chip_id : Nat) : Option String :=
  (ft5x06_fwu_info.find? (fun info => info.chip_id == chip_id)).map
    (fun info => info.fts_name)

/-- `ft5x06_get_info` (src/ft5x06-tool.c:191): linear search, `none` = NULL. -/
def ft5x06_get_info (chip_id : Nat) : Option ft5x06_fw_update_info :=
  ft5x06_fwu_info.find? (fun info => info.chip_id == chip_id)

/-- Deterministic oracle for the chip / bus.  Fields are consulted exactly at
the points where the C code consults the corresponding value; return values
that the C code discards have no field (discarding a pure value is
unobservable).  `writeRes` is the `ioctl` result of a plain write, keyed by
the written bytes; the only plain write whose result the C code ever checks
is the `{0x55, 0xAA}` upgrade-mode enter write (src/ft5x06-tool.c:275). -/
structure Chip where
  /-- result of `ft5x06_i2c_write` as a function of the written bytes -/
  writeRes : List Nat → Int := fun _ => 0
  /-- 3-byte reply of the HID-to-I²C bridge read, per bootloader-entry attempt -/
  bridgeResp : Nat → Nat × Nat × Nat := fun _ => (0, 0, 0)
  /-- 2-byte reply to the `{0x90,0,0,0}` READ-ID command, per entry attempt -/
  readIdResp : Nat → Nat × Nat := fun _ => (0, 0)
  /-- 2-byte reply of a `FT_FLASH_STATUS` (0x6A) poll, per packet number and poll turn -/
  flashStatus : Nat → Nat → Nat × Nat := fun _ _ => (0, 0)
  /-- byte behind the ECC register 0xCC -/
  eccVal : Nat := 0
  /-- byte `j` of the read-packet reply for the packet at `offset` -/
  readPktVal : Nat → Nat → Nat := fun _ _ => 0
  /-- `ioctl` result of the read-packet transfer at `offset` -/
  readPktRes : Nat → Int := fun _ => 0
  /-- byte behind the chip-id register 0xA3 -/
  idVal : Nat := 0
  /-- `ioctl` result of the chip-id read -/
  idRes : Int := 0
  /-- byte behind the firmware-version register 0xA6 -/
  fwVal : Nat := 0
  /-- `ioctl` result of the firmware-version read -/
  fwRes : Int := 0

/-- `ft5x06_write_reg` (src/ft5x06-tool.c:170): the two-byte write
`[regnum, value]`; its transport result is discarded by the C code. -/
def ft5x06_write_reg (regnum value : Nat) : Tx :=
  Tx.wr [regnum, value]

/-- `ft5x06_reset_ctpm` (src/ft5x06-tool.c:240): `0xFC ← 0xAA`, sleep,
`0xFC ← 0x55`, sleep.  Sleeps are not transport-visible.  The C code looks
up the per-variant delays but produces the same transactions for every
variant. -/
def ft5x06_reset_ctpm : List Tx :=
  [ft5x06_write_reg 0xFC 0xAA, ft5x06_write_reg 0xFC 0x55]

/-- `ft5x06_reset_fw` (src/ft5x06-tool.c:250): the raw one-byte `0x07` write. -/
def ft5x06_reset_fw : List Tx :=
  [Tx.wr [0x07]]

/-- `ft5x26_hid_to_i2c` (src/ft5x06-tool.c:203): write `{0xEB,0xAA,0x09}`,
then a pure 3-byte read.  The reply is compared against `{0xEB,0xAA,0x08}`
only under `DEBUG` logging; a mismatch is not fatal and does not influence
control flow, so the model records the transaction and moves on.
`attempt` indexes the oracle by the bootloader-entry attempt. -/
def ft5x26_hid_to_i2c (chip : Chip) (attempt : Nat) : List Tx :=
  [Tx.wr [0xEB, 0xAA, 0x09],
   Tx.rd [] 3 [(chip.bridgeResp attempt).1 % 256,
               (chip.bridgeResp attempt).2.1 % 256,
               (chip.bridgeResp attempt).2.2 % 256]]

/-- `ft5x06_read_id` (src/ft5x06-tool.c:220): four-byte `{0x90,0,0,0}` write
followed by a 2-byte read, compared against the variant's upgrade-id pair.
The C code dereferences `ft5x06_get_info(chip_id)` without a NULL check here;
all call sites inside `main` are guarded by `ft5x06_get_name`, so the
`getD default` fallback is unreachable from the modelled entry points.
`attempt` indexes the oracle by the bootloader-entry attempt.  The transport
result of the read itself is discarded by the C code (only the bytes are
compared). -/
def ft5x06_read_id (chip : Chip) (chip_id : Nat) (attempt : Nat) : Int × List Tx :=
  let info := (ft5x06_get_info chip_id).getD default
  let r1 := (chip.readIdResp attempt).1 % 256
  let r2 := (chip.readIdResp attempt).2 % 256
  let t := [Tx.rd [0x90, 0x00, 0x00, 0x00] 2 [r1, r2]]
  if r1 ≠ info.upgrade_id_1 ∨ r2 ≠ info.upgrade_id_2 then (-1, t) else (0, t)

/-- The loop body of `ft5x06_init_upgrade` (src/ft5x06-tool.c:264-285),
with the loop counter `i` and the remaining iteration count `fuel` explicit
(`ft5x06_init_upgrade` supplies `fuel = FT_UPGRADE_LOOP = 30`, the exact
iteration bound of the C `for` loop; the fuel-zero branch is the
loop-exhausted `return -EIO`).  Per iteration: CTPM reset, the HID bridge
for the FT5x26 variant only, the `{0x55, 0xAA}` enter write (a negative
transport result `continue`s to the next iteration), then the READ-ID check
(`break` on success). -/
def initLoop (chip : Chip) (chip_id : Nat) : Nat → Nat → Int × List Tx
  | _, 0 => (-5, [])
  | i, fuel + 1 =>
    let base := ft5x06_reset_ctpm
      ++ (if chip_id = 0x54 then ft5x26_hid_to_i2c chip i else [])
      ++ [Tx.wr [0x55, 0xAA]]
    if chip.writeRes [0x55, 0xAA] < 0 then
      let r := initLoop chip chip_id (i + 1) fuel
      (r.1, base ++ r.2)
    else
      let rid := ft5x06_read_id chip chip_id i
      if rid.1 = 0 then (0, base ++ rid.2)
      else
        let r := initLoop chip chip_id (i + 1) fuel
        (r.1, base ++ rid.2 ++ r.2)

/-- `ft5x06_init_upgrade` (src/ft5x06-tool.c:259): at most 30 attempts,
`-EIO = -5` when exhausted. -/
def ft5x06_init_upgrade (chip : Chip) (chip_id : Nat) : Int × List Tx :=
  initLoop chip chip_id 0 30

/-- The `break` condition of the flash-status poll
(src/ft5x06-tool.c:323): `(pkt_num + 0x1000) == ((reg_val[0] << 8) | reg_val[1])`. -/
def flashStatusHit (chip : Chip) (pktNum j : Nat) : Bool :=
  pktNum + 0x1000 == ((((chip.flashStatus pktNum j).1 % 256) <<< 8) |||
                      ((chip.flashStatus pktNum j).2 % 256))

/-- The flash-status poll loop of `ft5x06_fw_send_packet`
(src/ft5x06-tool.c:316-325): up to `fuel = 5` reads of register 0x6A,
stopping on the first hit.  The result bytes never abort anything; a
five-miss run falls through silently.  The C code performs this loop for
every chip variant (the `msleep`-only alternative is compiled out under
`#if 0`). -/
def pollStatus (chip : Chip) (pktNum : Nat) : Nat → Nat → List Tx
  | _, 0 => []
  | j, fuel + 1 =>
    let tx := Tx.rd [0x6A] 2 [(chip.flashStatus pktNum j).1 % 256,
                              (chip.flashStatus pktNum j).2 % 256]
    if flashStatusHit chip pktNum j then [tx]
    else tx :: pollStatus chip pktNum (j + 1) fuel

/-- `ft5x06_fw_send_packet` (src/ft5x06-tool.c:293): builds the packet
`{command, 0x00, offset>>8, offset&0xFF, length>>8, length&0xFF}` followed
by `length` payload bytes `data[offset+i]`, XORing each payload byte into
the running `ecc`, writes it in one transaction (result discarded by the C
code), then runs the flash-status poll.  Returns the new `ecc` and the
transactions. -/
def ft5x06_fw_send_packet (chip : Chip) (command offset length : Nat)
    (data : List Nat) (ecc : Nat) : Nat × List Tx :=
  let header := [command, 0x00, (offset >>> 8) % 256, offset % 256,
                 (length >>> 8) % 256, length % 256]
  let payload := (List.range length).map (fun j => data.getD (offset + j) 0)
  let ecc' := payload.foldl (· ^^^ ·) ecc
  (ecc', Tx.wr (header ++ payload) :: pollStatus chip (offset / 128) 0 5)

/-- The programming loop of `ft5x06_fw_upgrade` (src/ft5x06-tool.c:412-420):
`for (i = 0; i < data_len; i += 128)`, packet length
`min(FT_FW_PKT_LEN = 128, data_len - i)`.  `fuel` makes the recursion
structural; `ft5x06_fw_upgrade` supplies `data_len / 128 + 1`, which is at
least the number of iterations of the C loop, so the fuel-zero branch is
unreachable from the canonical call. -/
def programLoop (chip : Chip) (data : List Nat) (data_len : Nat) :
    Nat → Nat → Nat → Nat × List Tx
  | _, ecc, 0 => (ecc, [])
  | i, ecc, fuel + 1 =>
    if i < data_len then
      let length := if data_len - i < 128 then data_len - i else 128
      let s := ft5x06_fw_send_packet chip 0xBF i length data ecc
      let r := programLoop chip data data_len (i + 128) s.1 fuel
      (r.1, s.2 ++ r.2)
    else (ecc, [])

/-- `ft5x06_fw_upgrade` (src/ft5x06-tool.c:379): NULL registry lookup gives
`-ENODEV = -19`; bootloader entry failure propagates; then erase app
(`0x61`), erase panel (`0x63`) for every variant except FT5x26, the
24-bit big-endian length announce (`0xB0`), the 128-byte programming loop,
the 1-byte ECC read from register 0xCC (its transport result is discarded
by the C code; the buffer byte is compared), `-EIO = -5` on ECC mismatch,
and the firmware reset on success.  None of the erase / announce / program
write results are checked by the C code. -/
def ft5x06_fw_upgrade (chip : Chip) (chip_id : Nat) (data : List Nat)
    (data_len : Nat) : Int × List Tx :=
  match ft5x06_get_info chip_id with
  | none => (-19, [])
  | some _ =>
    let ini := ft5x06_init_upgrade chip chip_id
    if ini.1 < 0 then ini
    else
      let erase := Tx.wr [0x61] :: (if chip_id ≠ 0x54 then [Tx.wr [0x63]] else [])
      let announce := [Tx.wr [0xB0, (data_len >>> 16) &&& 0xFF,
                              (data_len >>> 8) &&& 0xFF, data_len &&& 0xFF]]
      let p := programLoop chip data data_len 0 0 (data_len / 128 + 1)
      let eccByte := chip.eccVal % 256
      let verify := [Tx.rd [0xCC] 1 [eccByte]]
      if eccByte ≠ p.1 then (-5, ini.2 ++ erase ++ announce ++ p.2 ++ verify)
      else (0, ini.2 ++ erase ++ announce ++ p.2 ++ verify ++ ft5x06_reset_fw)

/-- `ft5x06_fw_receive_packet` (src/ft5x06-tool.c:329): four-byte
`{command, 0x00, offset>>8, offset&0xFF}` write followed by a `length`-byte
read; returns the transfer result, the transaction and the received bytes. -/
def ft5x06_fw_receive_packet (chip : Chip) (command offset length : Nat) :
    Int × Tx × List Nat :=
  let resp := (List.range length).map (fun j => chip.readPktVal offset j % 256)
  (chip.readPktRes offset,
   (Tx.rd [command, 0x00, (offset >>> 8) % 256, offset % 256] length resp, resp))

/-- The read loop of `ft5x06_fw_read` (src/ft5x06-tool.c:357-369):
`for (i = 0; i < 65536; i += 256)`, packet length
`min(FT_FW_PKT_READ_LEN = 256, 65536 - i)`; a negative transfer result
aborts; otherwise `write(outfd, data, 256)` appends the full 256-byte
buffer to the output file (the tail beyond the logical length would be the
uninitialized rest of the stack buffer, modelled as zeros; it is never
reached because 65536 is a multiple of 256).  `fuel` makes the recursion
structural; `ft5x06_fw_read` supplies 256, the exact iteration count. -/
def readLoop (chip : Chip) : Nat → Nat → Int × List Tx × List Nat
  | _, 0 => (0, [], [])
  | i, fuel + 1 =>
    if i < 65536 then
      let length := if 65536 - i < 256 then 65536 - i else 256
      let rp := ft5x06_fw_receive_packet chip 0x03 i length
      if rp.1 < 0 then (rp.1, ([rp.2.1], []))
      else
        let chunk := rp.2.2 ++ List.replicate (256 - length) 0
        let r := readLoop chip (i + 256) fuel
        (r.1, (rp.2.1 :: r.2.1, chunk ++ r.2.2))
    else (0, [], [])

/-- `ft5x06_fw_read` (src/ft5x06-tool.c:345): bootloader entry, the 256-byte
read loop over the whole 65536-byte image, then the raw `0x07` firmware
reset (written inline in the C code; its result is discarded).  Returns the
result, the transactions and the bytes written to the output file. -/
def ft5x06_fw_read (chip : Chip) (chip_id : Nat) : Int × List Tx × List Nat :=
  let ini := ft5x06_init_upgrade chip chip_id
  if ini.1 < 0 then (ini.1, (ini.2, []))
  else
    let r := readLoop chip 0 256
    if r.1 < 0 then (r.1, (ini.2 ++ r.2.1, r.2.2))
    else (0, (ini.2 ++ r.2.1 ++ [Tx.wr [0x07]], r.2.2))

/-! ### CLI layer (`show_help`, argument parsing, `main`) -/

/-- The usage text printed by `show_help` (src/ft5x06-tool.c:461-475),
verbatim (the `%s` is the program name placeholder of the C `printf`). -/
def show_help_text : String :=
  "FT5x06 tool usage: %s [OPTIONS]\nOPTIONS:\n\t-a, --address\n\t\tI2C address of the FT5x06 controller (hex). Default is 0x38.\n\t-b, --bus\n\t\tI2C bus the FT5x06 controller is on. Default is 2.\n\t-c, --chipid\n\t\tForce chip ID to the value (hex). Default is read from controller.\n\t-i, --input\n\t\tInput firmware file to flash.\n\t-o, --output\n\t\tOutput firmware file read from FT5x06.\n\t-h, --help\n\t\tShow this help and exit.\n"

/-- `c == d` for a byte-list scan. -/
def charsStartWith : List Char → List Char → Bool
  | [], _ => true
  | _ :: _, [] => false
  | c :: cs, d :: ds => c == d && charsStartWith cs ds

/-- `needle` occurs contiguously inside the second list. -/
def charsContain (needle : List Char) : List Char → Bool
  | [] => charsStartWith needle []
  | d :: ds => charsStartWith needle (d :: ds) || charsContain needle ds

/-- Decidable "the string `hay` contains `needle` as a substring". -/
def textMentions (needle hay : String) : Bool :=
  charsContain needle.toList hay.toList

/-- Value of a hexadecimal digit character, else `none`. -/
def hexDigitVal (c : Char) : Option Nat :=
  if 48 ≤ c.toNat ∧ c.toNat ≤ 57 then some (c.toNat - 48)
  else if 97 ≤ c.toNat ∧ c.toNat ≤ 102 then some (c.toNat - 87)
  else if 65 ≤ c.toNat ∧ c.toNat ≤ 70 then some (c.toNat - 55)
  else none

/-- Value of a decimal digit character, else `none`. -/
def decDigitVal (c : Char) : Option Nat :=
  if 48 ≤ c.toNat ∧ c.toNat ≤ 57 then some (c.toNat - 48) else none

/-- Accumulate digits until the first non-digit. -/
def digitsVal (digit : Char → Option Nat) (base : Nat) : List Char → Nat → Nat
  | [], acc => acc
  | c :: cs, acc =>
    match digit c with
    | some d => digitsVal digit base cs (acc * base + d)
    | none => acc

/-- Models `strtol(s, NULL, 16)` on the plain hex-digit strings the tool is
invoked with (no sign / whitespace / `0x`-prefix handling, which the claims
never exercise). -/
def hexVal (s : String) : Nat := digitsVal hexDigitVal 16 s.toList 0

/-- Models `strtol(s, NULL, 10)` on plain decimal-digit strings. -/
def decVal (s : String) : Nat := digitsVal decDigitVal 10 s.toList 0

/-- The option state accumulated by `main`'s argument loop
(src/ft5x06-tool.c:479-487): defaults `addr = 0x38`, `bus = 2`,
`chip_id = -1` (modelled as `chipid = none`), `input = output = NULL`. -/
structure Opts where
  addr : Nat := 0x38
  bus : Nat := 2
  chipid : Option Nat := none
  input : Option String := none
  output : Option String := none
deriving Repr, DecidableEq

/-- Outcome of the argument loop: either the accumulated options, or the
`show_help(...); exit(1)` path taken on the first unrecognised argument. -/
inductive ParseResult where
  | ok (opts : Opts)
  | usage
deriving Repr, DecidableEq

/-- The argument loop of `main` (src/ft5x06-tool.c:490-511).  Each
recognised flag consumes the following argument (`argv[++arg_count]`) as its
value.  Note the C code recognises only `"-o"` and the misspelt `"--ouput"`
for the output flag; the spelling `"--output"` falls into the `else` branch.
A recognised flag in last position makes the C code read `argv[argc]`
(= NULL): for `-i`/`-o` the pointer stays NULL, for the numeric flags
`strtol(NULL, ...)` is undefined; the `[a]` cases model the NULL value as
`none` / the empty string and are not exercised by any claim. -/
def parseArgs : List String → Opts → ParseResult
  | [], opts => ParseResult.ok opts
  | [a], opts =>
    if a = "-a" ∨ a = "--address" then ParseResult.ok { opts with addr := hexVal "" }
    else if a = "-b" ∨ a = "--bus" then ParseResult.ok { opts with bus := decVal "" }
    else if a = "-c" ∨ a = "--chipid" then ParseResult.ok { opts with chipid := some (hexVal "") }
    else if a = "-i" ∨ a = "--input" then ParseResult.ok { opts with input := none }
    else if a = "-o" ∨ a = "--ouput" then ParseResult.ok { opts with output := none }
    else ParseResult.usage
  | a :: v :: rest, opts =>
    if a = "-a" ∨ a = "--address" then parseArgs rest { opts with addr := hexVal v }
    else if a = "-b" ∨ a = "--bus" then parseArgs rest { opts with bus := decVal v }
    else if a = "-c" ∨ a = "--chipid" then parseArgs rest { opts with chipid := some (hexVal v) }
    else if a = "-i" ∨ a = "--input" then parseArgs rest { opts with input := some v }
    else if a = "-o" ∨ a = "--ouput" then parseArgs rest { opts with output := some v }
    else ParseResult.usage

/-- Host-side environment of one invocation: the chip oracle plus the
results of the host syscalls `main` checks (`open` on the bus device,
the `I2C_SLAVE_FORCE` ioctl, `open` on the output and input files, `mmap`),
and the memory-mapped input image (`sb.st_size` is its length). -/
structure Env where
  chip : Chip := {}
  openRes : Int := 0
  ioctlRes : Int := 0
  outOpenRes : Int := 0
  inOpenRes : Int := 0
  mmapOk : Bool := true
  inputData : List Nat := []

/-- Observable outcome of `main`: the process exit value (the value passed
to `exit` / returned from `main`), the I²C transactions issued, and the
bytes written to the output file. -/
structure MainOut where
  exit : Int
  trace : List Tx
  fileOut : List Nat
deriving Repr, DecidableEq

/-- Chip-id determination of `main` (src/ft5x06-tool.c:529-537): if no
`-c` flag was given, read register 0xA3; a failed read jumps to `end`
(modelled as `none`). -/
def resolveChipId (env : Env) (opts : Opts) : Option Nat :=
  match opts.chipid with
  | some n => some n
  | none => if env.chip.idRes < 0 then none else some (env.chip.idVal % 256)

/-- The read-then-flash tail of `main` (src/ft5x06-tool.c:572-595): flash the
input image if `-i` was given; a failed `open` or `mmap` jumps to `end`.
Every path ends at the `end:` label, `close(fd); return 0`. -/
def mainFlash (env : Env) (opts : Opts) (chip_id : Nat) (t : List Tx)
    (out : List Nat) : MainOut :=
  match opts.input with
  | none => { exit := 0, trace := t, fileOut := out }
  | some _ =>
    if env.inOpenRes < 0 then { exit := 0, trace := t, fileOut := out }
    else if !env.mmapOk then { exit := 0, trace := t, fileOut := out }
    else
      let ur := ft5x06_fw_upgrade env.chip chip_id env.inputData env.inputData.length
      { exit := 0, trace := t ++ ur.2, fileOut := out }

/-- `main` (src/ft5x06-tool.c:477-599), named `mainRun` because Lean
reserves `main` for executable entry points.  Exit values: `exit(1)` on an
unrecognised argument, `return fd` when opening the bus device fails,
`return -1` when the slave-address ioctl fails — and `return 0` from the
`end:` label on every other path, including all the error paths that merely
log (`Couldn't get ID`, `Unsupported chip ID`, `Failed to read FW`,
`Failed to flash FW`).  When both `-o` and `-i` are given, the firmware is
read to the output file first and flashed from the input file second. -/
def mainRun (env : Env) (args : List String) : MainOut :=
  match parseArgs args {} with
  | ParseResult.usage => { exit := 1, trace := [], fileOut := [] }
  | ParseResult.ok opts =>
    if env.openRes < 0 then { exit := env.openRes, trace := [], fileOut := [] }
    else if env.ioctlRes ≠ 0 then { exit := -1, trace := [], fileOut := [] }
    else
      let detTrace : List Tx :=
        match opts.chipid with
        | some _ => []
        | none => [Tx.rd [0xA3] 1 [env.chip.idVal % 256]]
      match resolveChipId env opts with
      | none => { exit := 0, trace := detTrace, fileOut := [] }
      | some chip_id =>
        if (ft5x06_get_name chip_id).isNone then
          { exit := 0, trace := detTrace, fileOut := [] }
        else
          let t0 := detTrace ++ [Tx.rd [0xA6] 1 [env.chip.fwVal % 256]]
          if env.chip.fwRes < 0 then { exit := 0, trace := t0, fileOut := [] }
          else if opts.input.isNone && opts.output.isNone then
            { exit := 0, trace := t0, fileOut := [] }
          else
            match opts.output with
            | some _ =>
              if env.outOpenRes < 0 then { exit := 0, trace := t0, fileOut := [] }
              else
                let rr := ft5x06_fw_read env.chip chip_id
                mainFlash env opts chip_id (t0 ++ rr.2.1) rr.2.2
            | none => mainFlash env opts chip_id t0 []

/-! ### Trace observers and concrete fixtures -/

/-- The payload of a programming packet (`FT_FW_START_REG = 0xBF` write):
everything after the six header bytes; `none` for any other transaction. -/
def txPayload : Tx → Option (List Nat)
  | Tx.wr (b :: rest) => if b = 0xBF then some (rest.drop 5) else none
  | _ => none

/-- The programming packet `ft5x06_fw_send_packet` emits at `off` for an
image `data` programmed with `data_len = data.length`: six header bytes and
the `min 128 (data.length - off)`-byte slice of the image. -/
def mkProgPacket (data : List Nat) (off : Nat) : Tx :=
  Tx.wr ([0xBF, 0x00, (off >>> 8) % 256, off % 256,
          (min 128 (data.length - off) >>> 8) % 256, min 128 (data.length - off) % 256]
         ++ (data.drop off).take (min 128 (data.length - off)))

/-- The READ-ID reply of attempt `attempt` matches the variant's expected
upgrade-id pair (the success condition of `ft5x06_read_id`). -/
def idMatch (chip : Chip) (info : ft5x06_fw_update_info) (attempt : Nat) : Prop :=
  (chip.readIdResp attempt).1 % 256 = info.upgrade_id_1 ∧
  (chip.readIdResp attempt).2 % 256 = info.upgrade_id_2

instance (chip : Chip) (info : ft5x06_fw_update_info) (attempt : Nat) :
    Decidable (idMatch chip info attempt) := by
  unfold idMatch; infer_instance

/-- A chip that answers the FT5x06/FT5x16-style READ-ID pair `(0x79, 0x03)`
immediately and otherwise behaves trivially (all reads zero, all transfers
succeed). -/
def chipId79_03 : Chip := { readIdResp := fun _ => (0x79, 0x03) }

/-- Like `chipId79_03` with ECC register byte 4 (the XOR of `[1,2,3,4]`). -/
def chipEcc4 : Chip := { readIdResp := fun _ => (0x79, 0x03), eccVal := 4 }

/-- Like `chipId79_03` with ECC register byte 8 (the XOR of `[1,...,8]`). -/
def chipEcc8 : Chip := { readIdResp := fun _ => (0x79, 0x03), eccVal := 8 }

/-- Like `chipEcc8`, but the erase-app write `{0x61}` fails on the
transport (`ioctl` result −1); every other transfer succeeds. -/
def chipEraseFail : Chip :=
  { readIdResp := fun _ => (0x79, 0x03), eccVal := 8,
    writeRes := fun b => if b = [0x61] then -1 else 0 }

/-- Like `chipEcc8` with a READ-ID reply for chip id 0x0a (`(0x79, 0x07)`). -/
def chipId79_07 : Chip := { readIdResp := fun _ => (0x79, 0x07), eccVal := 8 }

/-- A chip whose READ-ID reply `(0, 0)` never matches any registered
variant's upgrade-id pair. -/
def chipWrongId : Chip := {}

/-- Environment whose chip-id register reads 0x99, an id outside the
variant registry. -/
def envUnsupported : Env := { chip := { idVal := 0x99 } }

/-- Environment whose chip-id read fails on the transport. -/
def envIdReadFail : Env := { chip := { idRes := -1 } }

/-- Cooperative environment for a combined read + flash run: detection
reports chip id 0x55, bootloader entry succeeds at once, and an 8-byte
input image is memory-mapped. -/
def envBoth : Env :=
  { chip := { readIdResp := fun _ => (0x79, 0x03), idVal := 0x55 },
    inputData := [1, 2, 3, 4, 5, 6, 7, 8] }

/-! ### General lemmas -/

lemma range_map_getD (data : List Nat) (i len : Nat) (h : i + len ≤ data.length) :
    (List.range len).map (fun j => data.getD (i + j) 0) = (data.drop i).take len := by
  apply List.ext_getElem
  · simp only [List.length_map, List.length_range, List.length_take, List.length_drop]
    omega
  · intro n h1 h2
    simp only [List.length_map, List.length_range] at h1
    simp only [List.getElem_map, List.getElem_range, List.getElem_take, List.getElem_drop]
    rw [List.getD_eq_getElem?_getD, List.getElem?_eq_getElem (by omega), Option.getD_some]

lemma drop_split_128 (data : List Nat) (i : Nat) :
    data.drop i = (data.drop i).take 128 ++ data.drop (i + 128) := by
  conv_lhs => rw [← List.take_append_drop 128 (data.drop i)]
  rw [List.drop_drop]

lemma sendPacket_fst (chip : Chip) (command offset length : Nat)
    (data : List Nat) (ecc : Nat) :
    (ft5x06_fw_send_packet chip command offset length data ecc).1
      = ((List.range length).map (fun j => data.getD (offset + j) 0)).foldl (· ^^^ ·) ecc := rfl

lemma programLoop_ecc (chip : Chip) (data : List Nat) :
    ∀ (fuel i ecc : Nat), data.length ≤ i + 128 * fuel →
      (programLoop chip data data.length i ecc fuel).1
        = (data.drop i).foldl (· ^^^ ·) ecc := by
  intro fuel
  induction fuel with
  | zero =>
    intro i ecc h
    rw [List.drop_eq_nil_of_le (by omega), List.foldl_nil]
    rfl
  | succ fuel ih =>
    intro i ecc h
    by_cases hi : i < data.length
    · simp only [programLoop, if_pos hi]
      rw [ih (i + 128) _ (by omega), sendPacket_fst]
      by_cases hl : data.length - i < 128
      · rw [if_pos hl]
        have hchunk : (List.range (data.length - i)).map (fun j => data.getD (i + j) 0)
            = data.drop i := by
          rw [range_map_getD data i (data.length - i) (by omega)]
          exact List.take_of_length_le (by simp)
        rw [hchunk, List.drop_eq_nil_of_le (by omega : data.length ≤ i + 128), List.foldl_nil]
      · rw [if_neg hl, range_map_getD data i 128 (by omega)]
        conv_rhs => rw [drop_split_128 data i, List.foldl_append]
    · simp only [programLoop, if_neg hi]
      rw [List.drop_eq_nil_of_le (by omega), List.foldl_nil]

lemma txPayload_rd (w : List Nat) (n : Nat) (r : List Nat) :
    txPayload (Tx.rd w n r) = none := rfl

lemma txPayload_packet (h1 h2 h3 h4 : Nat) (payload : List Nat) :
    txPayload (Tx.wr ([0xBF, 0x00, h1, h2, h3, h4] ++ payload)) = some payload := by
  show txPayload (Tx.wr (0xBF :: ([0x00, h1, h2, h3, h4] ++ payload))) = some payload
  have h5 : ([0x00, h1, h2, h3, h4] ++ payload).drop 5 = payload := by
    simp [List.drop_left [0x00, h1, h2, h3, h4] payload]
  simp [txPayload, h5]

lemma read_id_snd (chip : Chip) (cid att : Nat) :
    (ft5x06_read_id chip cid att).2
      = [Tx.rd [0x90, 0x00, 0x00, 0x00] 2
          [(chip.readIdResp att).1 % 256, (chip.readIdResp att).2 % 256]] := by
  simp only [ft5x06_read_id]
  split <;> rfl

lemma read_id_fst (chip : Chip) (cid att : Nat) (info : ft5x06_fw_update_info)
    (hinfo : ft5x06_get_info cid = some info) :
    (ft5x06_read_id chip cid att).1 = if idMatch chip info att then 0 else -1 := by
  simp only [ft5x06_read_id, hinfo, Option.getD_some, idMatch]
  by_cases h1 : (chip.readIdResp att).1 % 256 = info.upgrade_id_1 <;>
    by_cases h2 : (chip.readIdResp att).2 % 256 = info.upgrade_id_2 <;>
    simp [h1, h2]

lemma base_txPayload (chip : Chip) (cid i : Nat) (q : Tx)
    (hq : q ∈ ft5x06_reset_ctpm
      ++ (if cid = 0x54 then ft5x26_hid_to_i2c chip i else [])
      ++ [Tx.wr [0x55, 0xAA]]) :
    txPayload q = none := by
  by_cases h54 : cid = 0x54
  · rw [if_pos h54] at hq
    simp only [ft5x06_reset_ctpm, ft5x06_write_reg, ft5x26_hid_to_i2c,
      List.cons_append, List.nil_append, List.mem_append, List.mem_cons,
      List.not_mem_nil, or_false] at hq
    rcases hq with rfl | rfl | rfl | rfl | rfl <;> rfl
  · rw [if_neg h54] at hq
    simp only [ft5x06_reset_ctpm, ft5x06_write_reg, List.cons_append,
      List.nil_append, List.append_nil, List.mem_append, List.mem_cons,
      List.not_mem_nil, or_false] at hq
    rcases hq with rfl | rfl | rfl <;> rfl

lemma initLoop_txPayload (chip : Chip) (cid : Nat) :
    ∀ (fuel i : Nat), ∀ q ∈ (initLoop chip cid i fuel).2, txPayload q = none := by
  intro fuel
  induction fuel with
  | zero => intro i q hq; simp [initLoop] at hq
  | succ fuel ih =>
    intro i q hq
    simp only [initLoop] at hq
    split at hq
    · rcases List.mem_append.mp hq with h | h
      · exact base_txPayload chip cid i q h
      · exact ih (i + 1) q h
    · split at hq
      · rcases List.mem_append.mp hq with h | h
        · exact base_txPayload chip cid i q h
        · rw [read_id_snd] at h
          rcases List.mem_singleton.mp h with rfl
          rfl
      · rcases List.mem_append.mp hq with h | h
        · rcases List.mem_append.mp h with h' | h'
          · exact base_txPayload chip cid i q h'
          · rw [read_id_snd] at h'
            rcases List.mem_singleton.mp h' with rfl
            rfl
        · exact ih (i + 1) q h

lemma pollStatus_length_le (chip : Chip) (p : Nat) :
    ∀ (fuel j : Nat), (pollStatus chip p j fuel).length ≤ fuel := by
  intro fuel
  induction fuel with
  | zero => intro j; simp [pollStatus]
  | succ fuel ih =>
    intro j
    simp only [pollStatus]
    split
    · simp
    · simpa using Nat.succ_le_succ (ih (j + 1))

lemma pollStatus_length_pos (chip : Chip) (p fuel j : Nat) (h : 0 < fuel) :
    0 < (pollStatus chip p j fuel).length := by
  cases fuel with
  | zero => omega
  | succ fuel =>
    simp only [pollStatus]
    split <;> simp

lemma pollStatus_mem (chip : Chip) (p : Nat) :
    ∀ (fuel j : Nat), ∀ q ∈ pollStatus chip p j fuel,
      ∃ k, j ≤ k ∧ k < j + fuel ∧
        q = Tx.rd [0x6A] 2 [(chip.flashStatus p k).1 % 256,
                            (chip.flashStatus p k).2 % 256] := by
  intro fuel
  induction fuel with
  | zero => intro j q hq; simp [pollStatus] at hq
  | succ fuel ih =>
    intro j q hq
    simp only [pollStatus] at hq
    split at hq
    · rcases List.mem_singleton.mp hq with rfl
      exact ⟨j, le_refl j, by omega, rfl⟩
    · rcases List.mem_cons.mp hq with rfl | h
      · exact ⟨j, le_refl j, by omega, rfl⟩
      · obtain ⟨k, hk1, hk2, hk3⟩ := ih (j + 1) q h
        exact ⟨k, by omega, by omega, hk3⟩

lemma pollStatus_stop (chip : Chip) (p : Nat) :
    ∀ (fuel j k : Nat), k + 1 < (pollStatus chip p j fuel).length →
      flashStatusHit chip p (j + k) = false := by
  intro fuel
  induction fuel with
  | zero => intro j k hk; simp [pollStatus] at hk
  | succ fuel ih =>
    intro j k hk
    simp only [pollStatus] at hk
    split at hk
    · simp at hk
    · next hhit =>
      simp only [List.length_cons] at hk
      cases k with
      | zero => simpa using Bool.not_eq_true _ |>.mp hhit
      | succ k =>
        have := ih (j + 1) k (by omega)
        simpa [Nat.add_assoc, Nat.add_comm 1 k] using this

lemma count_reset_in_ctpm : ft5x06_reset_ctpm.count (Tx.wr [0xFC, 0xAA]) = 1 := by decide

lemma count_enter_in_ctpm : ft5x06_reset_ctpm.count (Tx.wr [0x55, 0xAA]) = 0 := by decide

lemma count_reset_in_iteBridge (chip : Chip) (cid i : Nat) :
    ((if cid = 0x54 then ft5x26_hid_to_i2c chip i else []).count (Tx.wr [0xFC, 0xAA])) = 0 := by
  split <;> simp [ft5x26_hid_to_i2c, List.count_cons, beq_iff_eq]

lemma count_enter_in_iteBridge (chip : Chip) (cid i : Nat) :
    ((if cid = 0x54 then ft5x26_hid_to_i2c chip i else []).count (Tx.wr [0x55, 0xAA])) = 0 := by
  split <;> simp [ft5x26_hid_to_i2c, List.count_cons, beq_iff_eq]

lemma count_reset_in_enterList :
    ([Tx.wr [0x55, 0xAA]] : List Tx).count (Tx.wr [0xFC, 0xAA]) = 0 := by decide

lemma count_enter_in_enterList :
    ([Tx.wr [0x55, 0xAA]] : List Tx).count (Tx.wr [0x55, 0xAA]) = 1 := by decide

lemma read_id_count_wr (chip : Chip) (cid att : Nat) (bytes : List Nat) :
    (ft5x06_read_id chip cid att).2.count (Tx.wr bytes) = 0 := by
  rw [read_id_snd]
  simp [List.count_cons, beq_iff_eq]

lemma initLoop_count_reset_le (chip : Chip) (cid : Nat) :
    ∀ (fuel i : Nat), (initLoop chip cid i fuel).2.count (Tx.wr [0xFC, 0xAA]) ≤ fuel := by
  intro fuel
  induction fuel with
  | zero => intro i; simp [initLoop]
  | succ fuel ih =>
    intro i
    simp only [initLoop]
    split
    · have := ih (i + 1)
      simp only [List.count_append, count_reset_in_ctpm, count_reset_in_iteBridge,
        count_reset_in_enterList]
      omega
    · split
      · simp only [List.count_append, count_reset_in_ctpm, count_reset_in_iteBridge,
          count_reset_in_enterList, read_id_count_wr]
        omega
      · have := ih (i + 1)
        simp only [List.count_append, count_reset_in_ctpm, count_reset_in_iteBridge,
          count_reset_in_enterList, read_id_count_wr]
        omega

lemma initLoop_wrong (chip : Chip) (cid : Nat) (info : ft5x06_fw_update_info)
    (hinfo : ft5x06_get_info cid = some info)
    (hok : ¬ chip.writeRes [0x55, 0xAA] < 0) :
    ∀ (fuel i : Nat), (∀ k, i ≤ k → k < i + fuel → ¬ idMatch chip info k) →
      (initLoop chip cid i fuel).1 = -5 ∧
      (initLoop chip cid i fuel).2.count (Tx.wr [0xFC, 0xAA]) = fuel ∧
      (initLoop chip cid i fuel).2.count (Tx.wr [0x55, 0xAA]) = fuel := by
  intro fuel
  induction fuel with
  | zero => intro i _; exact ⟨rfl, rfl, rfl⟩
  | succ fuel ih =>
    intro i h
    have hmi : ¬ idMatch chip info i := h i le_rfl (by omega)
    obtain ⟨ih1, ih2, ih3⟩ := ih (i + 1) (fun k hk1 hk2 => h k (by omega) (by omega))
    simp only [initLoop, if_neg hok]
    rw [if_neg (by rw [read_id_fst chip cid i info hinfo, if_neg hmi]; decide)]
    refine ⟨ih1, ?_, ?_⟩
    · simp only [List.count_append, count_reset_in_ctpm, count_reset_in_iteBridge,
        count_reset_in_enterList, read_id_count_wr, ih2]
      omega
    · simp only [List.count_append, count_enter_in_ctpm, count_enter_in_iteBridge,
        count_enter_in_enterList, read_id_count_wr, ih3]
      omega

lemma initLoop_success (chip : Chip) (cid : Nat) (info : ft5x06_fw_update_info)
    (hinfo : ft5x06_get_info cid = some info)
    (hok : ¬ chip.writeRes [0x55, 0xAA] < 0) :
    ∀ (fuel i k : Nat), i ≤ k → k < i + fuel → idMatch chip info k →
      (initLoop chip cid i fuel).1 = 0 := by
  intro fuel
  induction fuel with
  | zero => intro i k h1 h2 _; omega
  | succ fuel ih =>
    intro i k h1 h2 hm
    simp only [initLoop, if_neg hok]
    by_cases hmi : idMatch chip info i
    · rw [if_pos (by rw [read_id_fst chip cid i info hinfo, if_pos hmi])]
    · have hki : i ≠ k := fun e => hmi (e ▸ hm)
      rw [if_neg (by rw [read_id_fst chip cid i info hinfo, if_neg hmi]; decide)]
      exact ih (i + 1) k (by omega) (by omega) hm

lemma pollStatus_filterMap (chip : Chip) (p fuel j : Nat) :
    (pollStatus chip p j fuel).filterMap txPayload = [] := by
  rw [List.filterMap_eq_nil_iff]
  intro q hq
  obtain ⟨k, _, _, rfl⟩ := pollStatus_mem chip p fuel j q hq
  rfl

lemma sendPacket_snd (chip : Chip) (command offset length : Nat)
    (data : List Nat) (ecc : Nat) :
    (ft5x06_fw_send_packet chip command offset length data ecc).2
      = Tx.wr ([command, 0x00, (offset >>> 8) % 256, offset % 256,
                (length >>> 8) % 256, length % 256]
               ++ (List.range length).map (fun j => data.getD (offset + j) 0))
        :: pollStatus chip (offset / 128) 0 5 := rfl

lemma programLoop_trace (chip : Chip) (data : List Nat) :
    ∀ (fuel m ecc : Nat), data.length ≤ 128 * m + 128 * fuel →
      (∀ q ∈ (programLoop chip data data.length (128 * m) ecc fuel).2, ∀ pl,
        txPayload q = some pl →
          ∃ k, m ≤ k ∧ 128 * k < data.length ∧ q = mkProgPacket data (128 * k)) ∧
      ((programLoop chip data data.length (128 * m) ecc fuel).2.filterMap
          txPayload).flatten
        = data.drop (128 * m) := by
  intro fuel
  induction fuel with
  | zero =>
    intro m ecc h
    constructor
    · intro q hq; simp [programLoop] at hq
    · simp [programLoop, List.drop_eq_nil_of_le (by omega : data.length ≤ 128 * m)]
  | succ fuel ih =>
    intro m ecc h
    by_cases hi : 128 * m < data.length
    · simp only [programLoop, if_pos hi]
      have hlen : (if data.length - 128 * m < 128 then data.length - 128 * m else 128)
          = min 128 (data.length - 128 * m) := by split <;> omega
      rw [hlen]
      have h128 : 128 * m + 128 = 128 * (m + 1) := by ring
      rw [h128]
      obtain ⟨ihA, ihB⟩ := ih (m + 1)
        (ft5x06_fw_send_packet chip 0xBF (128 * m)
          (min 128 (data.length - 128 * m)) data ecc).1
        (by omega)
      have hpay : (List.range (min 128 (data.length - 128 * m))).map
            (fun j => data.getD (128 * m + j) 0)
          = (data.drop (128 * m)).take (min 128 (data.length - 128 * m)) :=
        range_map_getD data (128 * m) (min 128 (data.length - 128 * m)) (by omega)
      have hpkt : (ft5x06_fw_send_packet chip 0xBF (128 * m)
            (min 128 (data.length - 128 * m)) data ecc).2
          = mkProgPacket data (128 * m) :: pollStatus chip (128 * m / 128) 0 5 := by
        rw [sendPacket_snd, hpay, mkProgPacket]
      rw [hpkt]
      have hsome : txPayload (mkProgPacket data (128 * m))
          = some ((data.drop (128 * m)).take (min 128 (data.length - 128 * m))) :=
        txPayload_packet _ _ _ _ _
      constructor
      · intro q hq pl hpl
        rcases List.mem_append.mp hq with hq' | hq'
        · rcases List.mem_cons.mp hq' with rfl | hq''
          · exact ⟨m, le_rfl, hi, rfl⟩
          · obtain ⟨k, _, _, rfl⟩ := pollStatus_mem chip _ 5 0 q hq''
            simp [txPayload_rd] at hpl
        · obtain ⟨k, hk1, hk2, hk3⟩ := ihA q hq' pl hpl
          exact ⟨k, by omega, hk2, hk3⟩
      · rw [List.filterMap_append, List.filterMap_cons_some hsome,
          pollStatus_filterMap, List.flatten_append, List.flatten_cons,
          List.flatten_nil, List.append_nil, ihB]
        by_cases hl : data.length - 128 * m < 128
        · have hmin : min 128 (data.length - 128 * m) = data.length - 128 * m := by omega
          rw [hmin, List.take_of_length_le (by simp),
            List.drop_eq_nil_of_le (by omega : data.length ≤ 128 * (m + 1)),
            List.append_nil]
        · have hmin : min 128 (data.length - 128 * m) = 128 := by omega
          rw [hmin]
          conv_rhs => rw [drop_split_128 data (128 * m)]
          rw [h128]
    · simp only [programLoop, if_neg hi]
      constructor
      · intro q hq; simp at hq
      · simp [List.drop_eq_nil_of_le (by omega : data.length ≤ 128 * m)]

lemma pollStatus_congr (c1 c2 : Chip) (h : c1.flashStatus = c2.flashStatus) (p : Nat) :
    ∀ (fuel j : Nat), pollStatus c1 p j fuel = pollStatus c2 p j fuel := by
  intro fuel
  induction fuel with
  | zero => intro j; rfl
  | succ fuel ih =>
    intro j
    simp only [pollStatus, flashStatusHit, h, ih (j + 1)]

lemma sendPacket_congr (c1 c2 : Chip) (h : c1.flashStatus = c2.flashStatus)
    (command offset length : Nat) (data : List Nat) (ecc : Nat) :
    ft5x06_fw_send_packet c1 command offset length data ecc
      = ft5x06_fw_send_packet c2 command offset length data ecc := by
  simp only [ft5x06_fw_send_packet, pollStatus_congr c1 c2 h]

lemma programLoop_congr (c1 c2 : Chip) (h : c1.flashStatus = c2.flashStatus)
    (data : List Nat) (L : Nat) :
    ∀ (fuel i ecc : Nat), programLoop c1 data L i ecc fuel = programLoop c2 data L i ecc fuel := by
  intro fuel
  induction fuel with
  | zero => intro i ecc; rfl
  | succ fuel ih =>
    intro i ecc
    simp only [programLoop, sendPacket_congr c1 c2 h, ih]

lemma read_id_congr (c1 c2 : Chip) (h : c1.readIdResp = c2.readIdResp) (cid att : Nat) :
    ft5x06_read_id c1 cid att = ft5x06_read_id c2 cid att := by
  simp only [ft5x06_read_id, h]

lemma bridge_congr (c1 c2 : Chip) (h : c1.bridgeResp = c2.bridgeResp) (att : Nat) :
    ft5x26_hid_to_i2c c1 att = ft5x26_hid_to_i2c c2 att := by
  simp only [ft5x26_hid_to_i2c, h]

lemma initLoop_congr (c1 c2 : Chip) (hb : c1.bridgeResp = c2.bridgeResp)
    (hr : c1.readIdResp = c2.readIdResp)
    (hw : c1.writeRes [0x55, 0xAA] = c2.writeRes [0x55, 0xAA]) (cid : Nat) :
    ∀ (fuel i : Nat), initLoop c1 cid i fuel = initLoop c2 cid i fuel := by
  intro fuel
  induction fuel with
  | zero => intro i; rfl
  | succ fuel ih =>
    intro i
    simp only [initLoop, bridge_congr c1 c2 hb, read_id_congr c1 c2 hr, hw, ih]

lemma fw_upgrade_congr (c1 c2 : Chip) (hb : c1.bridgeResp = c2.bridgeResp)
    (hr : c1.readIdResp = c2.readIdResp)
    (hw : c1.writeRes [0x55, 0xAA] = c2.writeRes [0x55, 0xAA])
    (hfs : c1.flashStatus = c2.flashStatus) (hecc : c1.eccVal = c2.eccVal)
    (cid : Nat) (data : List Nat) (L : Nat) :
    ft5x06_fw_upgrade c1 cid data L = ft5x06_fw_upgrade c2 cid data L := by
  simp only [ft5x06_fw_upgrade, ft5x06_init_upgrade,
    initLoop_congr c1 c2 hb hr hw cid, programLoop_congr c1 c2 hfs, hecc]

lemma readLoop_spec (chip : Chip) (hr : ∀ off, 0 ≤ chip.readPktRes off) :
    ∀ (fuel : Nat), fuel ≤ 256 →
      readLoop chip (65536 - 256 * fuel) fuel
        = ((0 : Int),
           ((List.range fuel).map (fun t =>
              Tx.rd [0x03, 0x00, ((65536 - 256 * fuel + 256 * t) >>> 8) % 256,
                     (65536 - 256 * fuel + 256 * t) % 256] 256
                ((List.range 256).map (fun j =>
                  chip.readPktVal (65536 - 256 * fuel + 256 * t) j % 256))),
            ((List.range fuel).map (fun t =>
              (List.range 256).map (fun j =>
                chip.readPktVal (65536 - 256 * fuel + 256 * t) j % 256))).flatten)) := by
  intro fuel
  induction fuel with
  | zero => intro _; rfl
  | succ fuel ih =>
    intro hle
    have hi : 65536 - 256 * (fuel + 1) < 65536 := by omega
    have hlen : ¬ (65536 - (65536 - 256 * (fuel + 1)) < 256) := by omega
    have hstep : 65536 - 256 * (fuel + 1) + 256 = 65536 - 256 * fuel := by omega
    simp only [readLoop, if_pos hi, if_neg hlen, ft5x06_fw_receive_packet]
    rw [if_neg (by have := hr (65536 - 256 * (fuel + 1)); omega)]
    rw [hstep, ih (by omega)]
    simp only [Nat.sub_self, List.replicate, List.append_nil]
    rw [List.range_succ_eq_map fuel, List.map_cons, List.map_cons, List.map_map, List.map_map,
      List.flatten_cons]
    have hmapT : List.map
        ((fun t => Tx.rd [0x03, 0x00, ((65536 - 256 * (fuel + 1) + 256 * t) >>> 8) % 256,
            (65536 - 256 * (fuel + 1) + 256 * t) % 256] 256
            ((List.range 256).map (fun j =>
              chip.readPktVal (65536 - 256 * (fuel + 1) + 256 * t) j % 256))) ∘ Nat.succ)
        (List.range fuel)
        = List.map (fun t => Tx.rd [0x03, 0x00, ((65536 - 256 * fuel + 256 * t) >>> 8) % 256,
            (65536 - 256 * fuel + 256 * t) % 256] 256
            ((List.range 256).map (fun j =>
              chip.readPktVal (65536 - 256 * fuel + 256 * t) j % 256)))
          (List.range fuel) := by
      apply List.map_congr_left
      intro t _
      simp only [Function.comp_apply]
      rw [show 65536 - 256 * (fuel + 1) + 256 * Nat.succ t
          = 65536 - 256 * fuel + 256 * t from by omega]
    have hmapB : List.map
        ((fun t => (List.range 256).map (fun j =>
            chip.readPktVal (65536 - 256 * (fuel + 1) + 256 * t) j % 256)) ∘ Nat.succ)
        (List.range fuel)
        = List.map (fun t => (List.range 256).map (fun j =>
            chip.readPktVal (65536 - 256 * fuel + 256 * t) j % 256)) (List.range fuel) := by
      apply List.map_congr_left
      intro t _
      simp only [Function.comp_apply]
      rw [show 65536 - 256 * (fuel + 1) + 256 * Nat.succ t
          = 65536 - 256 * fuel + 256 * t from by omega]
    rw [hmapT, hmapB]
    simp only [Nat.mul_zero, Nat.add_zero]

lemma fw_read_spec (chip : Chip) (cid : Nat)
    (hinit : (ft5x06_init_upgrade chip cid).1 = 0)
    (hr : ∀ off, 0 ≤ chip.readPktRes off) :
    ft5x06_fw_read chip cid
      = ((0 : Int),
         ((ft5x06_init_upgrade chip cid).2
            ++ (List.range 256).map (fun t =>
                 Tx.rd [0x03, 0x00, ((256 * t) >>> 8) % 256, (256 * t) % 256] 256
                   ((List.range 256).map (fun j => chip.readPktVal (256 * t) j % 256)))
            ++ [Tx.wr [0x07]],
          ((List.range 256).map (fun t =>
             (List.range 256).map (fun j => chip.readPktVal (256 * t) j % 256))).flatten)) := by
  have hrl := readLoop_spec chip hr 256 (le_refl 256)
  rw [show (65536 : Nat) - 256 * 256 = 0 from by norm_num] at hrl
  simp only [Nat.zero_add] at hrl
  simp only [ft5x06_fw_read]
  rw [if_neg (by rw [hinit]; decide), hrl]
  norm_num

lemma mainFlash_exit (env : Env) (opts : Opts) (cid : Nat) (t : List Tx)
    (out : List Nat) : (mainFlash env opts cid t out).exit = 0 := by
  cases hin : opts.input with
  | none => simp [mainFlash, hin]
  | some f =>
    simp only [mainFlash, hin]
    split
    · rfl
    · split
      · rfl
      · rfl

lemma fw_upgrade_fst (chip : Chip) (cid : Nat) (info : ft5x06_fw_update_info)
    (hinfo : ft5x06_get_info cid = some info)
    (hinit : (ft5x06_init_upgrade chip cid).1 = 0) (data : List Nat) (L : Nat) :
    (ft5x06_fw_upgrade chip cid data L).1
      = if chip.eccVal % 256 = (programLoop chip data L 0 0 (L / 128 + 1)).1
        then 0 else -5 := by
  simp only [ft5x06_fw_upgrade, hinfo]
  rw [if_neg (by rw [hinit]; decide)]
  by_cases he : chip.eccVal % 256 = (programLoop chip data L 0 0 (L / 128 + 1)).1
  · rw [if_neg (by simp [he]), if_pos he]
  · rw [if_pos he, if_neg he]

lemma fw_upgrade_snd (chip : Chip) (cid : Nat) (info : ft5x06_fw_update_info)
    (hinfo : ft5x06_get_info cid = some info)
    (hinit : (ft5x06_init_upgrade chip cid).1 = 0) (data : List Nat) (L : Nat) :
    (ft5x06_fw_upgrade chip cid data L).2
      = (ft5x06_init_upgrade chip cid).2
        ++ (Tx.wr [0x61] :: (if cid ≠ 0x54 then [Tx.wr [0x63]] else []))
        ++ [Tx.wr [0xB0, (L >>> 16) &&& 0xFF, (L >>> 8) &&& 0xFF, L &&& 0xFF]]
        ++ (programLoop chip data L 0 0 (L / 128 + 1)).2
        ++ [Tx.rd [0xCC] 1 [chip.eccVal % 256]]
        ++ (if chip.eccVal % 256 = (programLoop chip data L 0 0 (L / 128 + 1)).1
            then ft5x06_reset_fw else []) := by
  simp only [ft5x06_fw_upgrade, hinfo]
  rw [if_neg (by rw [hinit]; decide)]
  by_cases he : chip.eccVal % 256 = (programLoop chip data L 0 0 (L / 128 + 1)).1
  · rw [if_neg (by simp [he]), if_pos he]
  · rw [if_pos he, if_neg he, List.append_nil]

lemma programLoop_ecc0 (chip : Chip) (data : List Nat) :
    (programLoop chip data data.length 0 0 (data.length / 128 + 1)).1
      = data.foldl (· ^^^ ·) 0 := by
  have := programLoop_ecc chip data (data.length / 128 + 1) 0 0 (by omega)
  simpa using this

lemma programLoop_trace0 (chip : Chip) (data : List Nat) :
    (∀ q ∈ (programLoop chip data data.length 0 0 (data.length / 128 + 1)).2, ∀ pl,
      txPayload q = some pl →
        ∃ k, 128 * k < data.length ∧ q = mkProgPacket data (128 * k)) ∧
    ((programLoop chip data data.length 0 0 (data.length / 128 + 1)).2.filterMap
        txPayload).flatten = data := by
  have := programLoop_trace chip data (data.length / 128 + 1) 0 0 (by omega)
  simp only [Nat.mul_zero, Nat.zero_add] at this
  obtain ⟨hA, hB⟩ := this
  refine ⟨?_, by simpa using hB⟩
  intro q hq pl hpl
  obtain ⟨k, _, hk2, hk3⟩ := hA q hq pl hpl
  exact ⟨k, hk2, hk3⟩

lemma mainRun_exit_usage (env : Env) (args : List String)
    (hp : parseArgs args {} = ParseResult.usage) : (mainRun env args).exit = 1 := by
  simp [mainRun, hp]

lemma mainRun_exit_openFail (env : Env) (args : List String) (opts : Opts)
    (hp : parseArgs args {} = ParseResult.ok opts) (ho : env.openRes < 0) :
    (mainRun env args).exit = env.openRes := by
  simp [mainRun, hp, ho]

lemma mainRun_exit_ioctlFail (env : Env) (args : List String) (opts : Opts)
    (hp : parseArgs args {} = ParseResult.ok opts) (ho : 0 ≤ env.openRes)
    (hic : env.ioctlRes ≠ 0) : (mainRun env args).exit = -1 := by
  simp only [mainRun, hp]
  rw [if_neg (by omega), if_pos hic]

lemma mainRun_exit_ok (env : Env) (args : List String) (opts : Opts)
    (hp : parseArgs args {} = ParseResult.ok opts)
    (ho : 0 ≤ env.openRes) (hic : env.ioctlRes = 0) :
    (mainRun env args).exit = 0 := by
  simp only [mainRun, hp]
  rw [if_neg (by omega), if_neg (by simp [hic])]
  cases hres : resolveChipId env opts with
  | none => simp
  | some cid =>
    simp only
    split
    · rfl
    · split
      · rfl
      · split
        · rfl
        · cases hout : opts.output with
          | none => exact mainFlash_exit env opts cid _ []
          | some f =>
            simp only
            split
            · rfl
            · exact mainFlash_exit env opts cid _ _

/-! ### Claim theorems -/

/-- Claim C1, counterexample: the claim says the process terminates with a
non-zero status whenever a fatal error occurs, naming the unsupported-chip-id
case explicitly.  In the code every such path (`goto end`) returns 0: a run
whose chip-id register reads the unsupported id 0x99 exits with status 0. -/
theorem claim_C1_counterexample :
    ft5x06_get_name 0x99 = none ∧ (mainRun envUnsupported []).exit = 0 := by
  exact ⟨by decide, by decide⟩

/-- Claim C1, amended: the exit value is 1 on an unrecognised argument
(`show_help; exit(1)`), the negative `open` result when the bus device
cannot be opened, −1 when the slave-address ioctl fails — and 0 on every
other run, including all fatal protocol errors (unsupported chip id,
transport error, bootloader entry failure, ECC mismatch), which are only
logged before `main` returns 0 from its `end:` label. -/
theorem claim_C1_amended (env : Env) (args : List String) :
    (parseArgs args {} = ParseResult.usage → (mainRun env args).exit = 1) ∧
    (∀ opts, parseArgs args {} = ParseResult.ok opts → env.openRes < 0 →
      (mainRun env args).exit = env.openRes) ∧
    (∀ opts, parseArgs args {} = ParseResult.ok opts → 0 ≤ env.openRes →
      env.ioctlRes ≠ 0 → (mainRun env args).exit = -1) ∧
    (∀ opts, parseArgs args {} = ParseResult.ok opts → 0 ≤ env.openRes →
      env.ioctlRes = 0 → (mainRun env args).exit = 0) :=
  ⟨fun hp => mainRun_exit_usage env args hp,
   fun opts hp ho => mainRun_exit_openFail env args opts hp ho,
   fun opts hp ho hic => mainRun_exit_ioctlFail env args opts hp ho hic,
   fun opts hp ho hic => mainRun_exit_ok env args opts hp ho hic⟩

/-- Witness for C1 (amended): a run whose chip-id read fails on the
transport still exits 0. -/
theorem claim_C1_amended_witness :
    envIdReadFail.chip.idRes < 0 ∧ (mainRun envIdReadFail []).exit = 0 :=
  ⟨by decide,
   (claim_C1_amended envIdReadFail []).2.2.2 {} (by decide) (by decide) (by decide)⟩

set_option maxRecDepth 40000 in
/-- Claim C9: the help text documents `-o, --output`, but the argument loop
compares against the misspelt long form `"--ouput"`; an argument vector
using the documented spelling `--output` falls into the unknown-flag branch
(usage + `exit(1)`) instead of selecting the dump destination. -/
theorem claim_C9_bug :
    parseArgs ["--output", "dump.bin"] {} = ParseResult.usage ∧
    parseArgs ["-o", "dump.bin"] {} = ParseResult.ok { output := some "dump.bin" } ∧
    parseArgs ["--ouput", "dump.bin"] {} = ParseResult.ok { output := some "dump.bin" } ∧
    textMentions "--output" show_help_text = true ∧
    textMentions "--ouput" show_help_text = false :=
  ⟨by decide, by decide, by decide, by decide, by decide⟩

/-- Claim C5: bootloader entry performs at most 30 CTPM-reset cycles; with
the enter write succeeding and every READ-ID reply wrong it performs exactly
30 reset cycles and exactly 30 `{0x55, 0xAA}` writes and returns
`-EIO = -5` (`BootloaderEntryFailed`); a matching ID pair on any of the 30
attempts makes it return success. -/
theorem claim_C5_retry (chip : Chip) (cid : Nat) (info : ft5x06_fw_update_info)
    (hinfo : ft5x06_get_info cid = some info) :
    ((ft5x06_init_upgrade chip cid).2.count (Tx.wr [0xFC, 0xAA]) ≤ 30) ∧
    (0 ≤ chip.writeRes [0x55, 0xAA] →
      (∀ k, k < 30 → ¬ idMatch chip info k) →
      (ft5x06_init_upgrade chip cid).1 = -5 ∧
      (ft5x06_init_upgrade chip cid).2.count (Tx.wr [0xFC, 0xAA]) = 30 ∧
      (ft5x06_init_upgrade chip cid).2.count (Tx.wr [0x55, 0xAA]) = 30) ∧
    (0 ≤ chip.writeRes [0x55, 0xAA] →
      ∀ k, k < 30 → idMatch chip info k → (ft5x06_init_upgrade chip cid).1 = 0) := by
  refine ⟨initLoop_count_reset_le chip cid 30 0, ?_, ?_⟩
  · intro hok hw
    exact initLoop_wrong chip cid info hinfo (by omega) 30 0 (fun k _ hk => hw k (by omega))
  · intro hok k hk hm
    exact initLoop_success chip cid info hinfo (by omega) 30 0 k (Nat.zero_le k) (by omega) hm

set_option maxRecDepth 40000 in
/-- Witness for C5: an always-wrong-ID chip fails with −5 after exactly 30
reset cycles and 30 enter writes; a chip answering `(0x79, 0x03)` at the
first attempt succeeds. -/
theorem claim_C5_retry_witness :
    ((ft5x06_init_upgrade chipWrongId 0x55).1 = -5 ∧
     (ft5x06_init_upgrade chipWrongId 0x55).2.count (Tx.wr [0xFC, 0xAA]) = 30 ∧
     (ft5x06_init_upgrade chipWrongId 0x55).2.count (Tx.wr [0x55, 0xAA]) = 30) ∧
    (ft5x06_init_upgrade chipId79_03 0x55).1 = 0 :=
  ⟨(claim_C5_retry chipWrongId 0x55
      ⟨0x55, "ft5x06", 5, 1, 50, 30, 0x79, 0x03, 10, 2000, 0x0000⟩
      (by decide)).2.1 (by decide) (by decide),
   (claim_C5_retry chipId79_03 0x55
      ⟨0x55, "ft5x06", 5, 1, 50, 30, 0x79, 0x03, 10, 2000, 0x0000⟩
      (by decide)).2.2 (by decide) 0 (by decide) (by decide)⟩

/-- Claim C3: for a write of image `data` (length announced as
`data.length`, as `main` does), the host's accumulated ECC equals the XOR of
all image bytes, and — once bootloader entry succeeded — the operation
fails with the ECC-mismatch error `-EIO = -5` iff the byte read from
register 0xCC differs from that XOR, and succeeds iff it equals it. -/
theorem claim_C3_ecc (chip : Chip) (cid : Nat) (info : ft5x06_fw_update_info)
    (hinfo : ft5x06_get_info cid = some info)
    (hinit : (ft5x06_init_upgrade chip cid).1 = 0) (data : List Nat) :
    (programLoop chip data data.length 0 0 (data.length / 128 + 1)).1
        = data.foldl (· ^^^ ·) 0 ∧
    ((ft5x06_fw_upgrade chip cid data data.length).1 = 0 ↔
      chip.eccVal % 256 = data.foldl (· ^^^ ·) 0) ∧
    ((ft5x06_fw_upgrade chip cid data data.length).1 = -5 ↔
      chip.eccVal % 256 ≠ data.foldl (· ^^^ ·) 0) := by
  have hecc := programLoop_ecc0 chip data
  have hfst := fw_upgrade_fst chip cid info hinfo hinit data data.length
  refine ⟨hecc, ?_, ?_⟩ <;> rw [hfst, hecc] <;>
    by_cases he : chip.eccVal % 256 = data.foldl (· ^^^ ·) 0 <;> simp [he]

set_option maxRecDepth 40000 in
/-- Witness for C3: with image `[1,2,3,4]` (XOR 4), a chip whose 0xCC
register holds 4 verifies successfully, and one whose register holds 0
fails with −5. -/
theorem claim_C3_ecc_witness :
    (ft5x06_fw_upgrade chipEcc4 0x55 [1, 2, 3, 4] 4).1 = 0 ∧
    (ft5x06_fw_upgrade chipId79_03 0x55 [1, 2, 3, 4] 4).1 = -5 :=
  ⟨((claim_C3_ecc chipEcc4 0x55
      ⟨0x55, "ft5x06", 5, 1, 50, 30, 0x79, 0x03, 10, 2000, 0x0000⟩
      (by decide) (by decide) [1, 2, 3, 4]).2.1).mpr (by decide),
   ((claim_C3_ecc chipId79_03 0x55
      ⟨0x55, "ft5x06", 5, 1, 50, 30, 0x79, 0x03, 10, 2000, 0x0000⟩
      (by decide) (by decide) [1, 2, 3, 4]).2.2).mpr (by decide)⟩

set_option maxRecDepth 40000 in
/-- Claim C2, counterexample: the claim says a write with image length
outside [8, 65536] fails with `ImageSizeOutOfRange` before any chip action.
The C code performs no size check at all (`FT_FW_MIN_SIZE`/`FT_FW_MAX_SIZE`
are defined but never used): an image of length 4 is flashed successfully —
bootloader entry, the `0x61` erase write and a programming packet all reach
the transport, and the operation returns 0. -/
theorem claim_C2_counterexample :
    ([1, 2, 3, 4] : List Nat).length < 8 ∧
    (ft5x06_fw_upgrade chipEcc4 0x55 [1, 2, 3, 4] 4).1 = 0 ∧
    Tx.wr [0x61] ∈ (ft5x06_fw_upgrade chipEcc4 0x55 [1, 2, 3, 4] 4).2 ∧
    Tx.wr [0xBF, 0x00, 0x00, 0x00, 0x00, 0x04, 1, 2, 3, 4]
      ∈ (ft5x06_fw_upgrade chipEcc4 0x55 [1, 2, 3, 4] 4).2 :=
  ⟨by decide, by decide, by decide, by decide⟩

/-- Claim C2, amended: the write engine performs no image-length validation;
for any length, including lengths outside [8, 65536], the operation proceeds
through erase/announce/program/verify exactly as for in-range images — the
only possible outcomes after successful bootloader entry are success (0) and
ECC mismatch (−5), and the erase write always reaches the transport. -/
theorem claim_C2_amended (chip : Chip) (cid : Nat) (info : ft5x06_fw_update_info)
    (hinfo : ft5x06_get_info cid = some info)
    (hinit : (ft5x06_init_upgrade chip cid).1 = 0)
    (data : List Nat) (_hout : data.length < 8 ∨ 65536 < data.length) :
    ((ft5x06_fw_upgrade chip cid data data.length).1 = 0 ∨
     (ft5x06_fw_upgrade chip cid data data.length).1 = -5) ∧
    ((ft5x06_fw_upgrade chip cid data data.length).1 = 0 ↔
      chip.eccVal % 256 = data.foldl (· ^^^ ·) 0) ∧
    Tx.wr [0x61] ∈ (ft5x06_fw_upgrade chip cid data data.length).2 := by
  have hfst := fw_upgrade_fst chip cid info hinfo hinit data data.length
  have hecc := programLoop_ecc0 chip data
  refine ⟨?_, ?_, ?_⟩
  · rw [hfst]; split
    · exact Or.inl rfl
    · exact Or.inr rfl
  · rw [hfst, hecc]
    by_cases he : chip.eccVal % 256 = data.foldl (· ^^^ ·) 0 <;> simp [he]
  · rw [fw_upgrade_snd chip cid info hinfo hinit data data.length]
    simp [List.mem_append]

/-- Witness for C2 (amended): a 2-byte image (out of range) still reaches
the erase phase. -/
theorem claim_C2_amended_witness :
    ([1, 2] : List Nat).length < 8 ∧
    Tx.wr [0x61] ∈ (ft5x06_fw_upgrade chipId79_03 0x55 [1, 2] 2).2 :=
  ⟨by decide,
   (claim_C2_amended chipId79_03 0x55
      ⟨0x55, "ft5x06", 5, 1, 50, 30, 0x79, 0x03, 10, 2000, 0x0000⟩
      (by decide) (by decide) [1, 2] (by decide)).2.2⟩

lemma txPayload_mkProgPacket (data : List Nat) (off : Nat) :
    txPayload (mkProgPacket data off)
      = some ((data.drop off).take (min 128 (data.length - off))) :=
  txPayload_packet _ _ _ _ _

lemma erase_txPayload (cid : Nat) (q : Tx)
    (hq : q ∈ Tx.wr [0x61] :: (if cid ≠ 0x54 then [Tx.wr [0x63]] else [])) :
    txPayload q = none := by
  rcases List.mem_cons.mp hq with rfl | h
  · rfl
  · split at h
    · rcases List.mem_singleton.mp h with rfl
      rfl
    · simp at h

lemma filterMap_init_nil (chip : Chip) (cid : Nat) :
    (ft5x06_init_upgrade chip cid).2.filterMap txPayload = [] := by
  rw [List.filterMap_eq_nil_iff]
  exact fun q hq => initLoop_txPayload chip cid 30 0 q hq

lemma filterMap_erase_nil (cid : Nat) :
    ((Tx.wr [0x61] :: (if cid ≠ 0x54 then [Tx.wr [0x63]] else [])).filterMap
      txPayload) = [] := by
  rw [List.filterMap_eq_nil_iff]
  exact fun q hq => erase_txPayload cid q hq

lemma filterMap_announce_nil (a b c : Nat) :
    ([Tx.wr [0xB0, a, b, c]].filterMap txPayload) = [] := by
  simp [txPayload]

lemma filterMap_verify_nil (x : Nat) :
    ([Tx.rd [0xCC] 1 [x]].filterMap txPayload) = [] := by
  simp [txPayload]

lemma filterMap_reset_ite_nil (c : Prop) [Decidable c] :
    ((if c then ft5x06_reset_fw else []).filterMap txPayload) = [] := by
  split <;> decide

lemma fw_upgrade_payload_mem (chip : Chip) (cid : Nat) (info : ft5x06_fw_update_info)
    (hinfo : ft5x06_get_info cid = some info)
    (hinit : (ft5x06_init_upgrade chip cid).1 = 0)
    (data : List Nat) (q : Tx) (pl : List Nat)
    (hq : q ∈ (ft5x06_fw_upgrade chip cid data data.length).2)
    (hpl : txPayload q = some pl) :
    q ∈ (programLoop chip data data.length 0 0 (data.length / 128 + 1)).2 := by
  rw [fw_upgrade_snd chip cid info hinfo hinit data data.length] at hq
  rcases List.mem_append.mp hq with h | h
  · rcases List.mem_append.mp h with h | h
    · rcases List.mem_append.mp h with h | h
      · rcases List.mem_append.mp h with h | h
        · rcases List.mem_append.mp h with h | h
          · rw [initLoop_txPayload chip cid 30 0 q h] at hpl
            cases hpl
          · rw [erase_txPayload cid q h] at hpl
            cases hpl
        · rcases List.mem_singleton.mp h with rfl
          simp [txPayload] at hpl
      · exact h
    · rcases List.mem_singleton.mp h with rfl
      cases hpl
  · split at h
    · rcases List.mem_singleton.mp h with rfl
      cases hpl
    · simp at h

/-- Claim C4: for a write of an in-range image, every programming packet in
the transport trace has a header offset that is a multiple of 128 and below
the image length, carries the header
`{0xBF, 0x00, high(offset), low(offset), high(n), low(n)}` with
`n = min 128 (L − offset)` followed by exactly that slice of the image, and
the concatenation of all packet payloads is the input image byte-for-byte. -/
theorem claim_C4_packets (chip : Chip) (cid : Nat) (info : ft5x06_fw_update_info)
    (hinfo : ft5x06_get_info cid = some info)
    (hinit : (ft5x06_init_upgrade chip cid).1 = 0)
    (data : List Nat) (_hL1 : 8 ≤ data.length) (_hL2 : data.length ≤ 65536) :
    (∀ q ∈ (ft5x06_fw_upgrade chip cid data data.length).2, ∀ pl,
      txPayload q = some pl →
        ∃ off, off % 128 = 0 ∧ off < data.length ∧
          q = Tx.wr ([0xBF, 0x00, (off >>> 8) % 256, off % 256,
                      (min 128 (data.length - off) >>> 8) % 256,
                      min 128 (data.length - off) % 256]
                     ++ (data.drop off).take (min 128 (data.length - off))) ∧
          pl = (data.drop off).take (min 128 (data.length - off)) ∧
          pl.length = min 128 (data.length - off)) ∧
    ((ft5x06_fw_upgrade chip cid data data.length).2.filterMap txPayload).flatten
      = data := by
  obtain ⟨hP, hJ⟩ := programLoop_trace0 chip data
  constructor
  · intro q hq pl hpl
    have hq' := fw_upgrade_payload_mem chip cid info hinfo hinit data q pl hq hpl
    obtain ⟨k, hk2, hk3⟩ := hP q hq' pl hpl
    subst hk3
    rw [txPayload_mkProgPacket] at hpl
    refine ⟨128 * k, Nat.mul_mod_right 128 k, hk2, rfl, (Option.some.inj hpl).symm, ?_⟩
    rw [(Option.some.inj hpl).symm]
    simp only [List.length_take, List.length_drop]
    omega
  · rw [fw_upgrade_snd chip cid info hinfo hinit data data.length]
    simp only [List.filterMap_append, filterMap_init_nil, filterMap_erase_nil,
      filterMap_announce_nil, filterMap_verify_nil, filterMap_reset_ite_nil,
      List.flatten_append, List.flatten_nil, List.nil_append, List.append_nil, hJ]

/-- Witness for C4: concrete 8-byte image against a cooperative chip; the
payload concatenation over the trace is the image itself. -/
theorem claim_C4_packets_witness :
    ((ft5x06_fw_upgrade chipEcc8 0x55 [1, 2, 3, 4, 5, 6, 7, 8] 8).2.filterMap
        txPayload).flatten = [1, 2, 3, 4, 5, 6, 7, 8] :=
  (claim_C4_packets chipEcc8 0x55
    ⟨0x55, "ft5x06", 5, 1, 50, 30, 0x79, 0x03, 10, 2000, 0x0000⟩
    (by decide) (by decide) [1, 2, 3, 4, 5, 6, 7, 8] (by decide) (by decide)).2

set_option maxRecDepth 40000 in
/-- Claim C6, counterexample: the claim says flash-status polling happens
only for the FT5x26 (chip id 0x54) and never for FT5x06.  The C code
compiles the polling loop unconditionally (`ft5x06_fw_send_packet` has no
chip-id parameter; the `msleep`-only path is `#if 0`): a flash of chip id
0x55 (FT5x06) produces a status read of register 0x6A in the trace. -/
theorem claim_C6_counterexample :
    (0x55 : Nat) ≠ 0x54 ∧
    Tx.rd [0x6A] 2 [0, 0]
      ∈ (ft5x06_fw_upgrade chipEcc8 0x55 [1, 2, 3, 4, 5, 6, 7, 8] 8).2 :=
  ⟨by decide, by decide⟩

/-- Claim C6, amended: after every programming packet — for every chip
variant, since `ft5x06_fw_send_packet` does not depend on the variant at
all — register 0x6A is polled between one and five times, every poll is a
two-byte read of 0x6A, and polling stops at the first reply matching
`(0x10 << 8) | pkt_num`. -/
theorem claim_C6_amended (chip : Chip) (cmd off len : Nat) (data : List Nat)
    (ecc : Nat) :
    (ft5x06_fw_send_packet chip cmd off len data ecc).2
      = Tx.wr ([cmd, 0x00, (off >>> 8) % 256, off % 256,
                (len >>> 8) % 256, len % 256]
          ++ (List.range len).map (fun j => data.getD (off + j) 0))
        :: pollStatus chip (off / 128) 0 5 ∧
    1 ≤ (pollStatus chip (off / 128) 0 5).length ∧
    (pollStatus chip (off / 128) 0 5).length ≤ 5 ∧
    (∀ q ∈ pollStatus chip (off / 128) 0 5, ∃ k, k < 5 ∧
      q = Tx.rd [0x6A] 2 [(chip.flashStatus (off / 128) k).1 % 256,
                          (chip.flashStatus (off / 128) k).2 % 256]) ∧
    (∀ k, k + 1 < (pollStatus chip (off / 128) 0 5).length →
      flashStatusHit chip (off / 128) k = false) := by
  refine ⟨rfl, pollStatus_length_pos chip (off / 128) 5 0 (by omega),
    pollStatus_length_le chip (off / 128) 5 0, ?_, ?_⟩
  · intro q hq
    obtain ⟨k, hk1, hk2, hk3⟩ := pollStatus_mem chip (off / 128) 5 0 q hq
    exact ⟨k, by omega, hk3⟩
  · intro k hk
    have := pollStatus_stop chip (off / 128) 5 0 k hk
    simpa using this

/-- Witness for C6 (amended): a concrete packet produces between one and
five status polls. -/
theorem claim_C6_amended_witness :
    1 ≤ (pollStatus chipId79_03 0 0 5).length ∧
    (pollStatus chipId79_03 0 0 5).length ≤ 5 :=
  ⟨(claim_C6_amended chipId79_03 0xBF 0 8 [1, 2, 3, 4, 5, 6, 7, 8] 0).2.1,
   (claim_C6_amended chipId79_03 0xBF 0 8 [1, 2, 3, 4, 5, 6, 7, 8] 0).2.2.1⟩

set_option maxRecDepth 40000 in
/-- Claim C7, counterexample: the claim says every transport error during
the erase phase aborts the write with `TransportError`.  The C code never
checks the result of the erase (or announce, program, verify) transfers: a
chip whose `{0x61}` erase write fails with −1 is still flashed to
completion, and the operation returns success. -/
theorem claim_C7_counterexample :
    chipEraseFail.writeRes [0x61] < 0 ∧
    (ft5x06_fw_upgrade chipEraseFail 0x55 [1, 2, 3, 4, 5, 6, 7, 8] 8).1 = 0 ∧
    Tx.wr [0x61] ∈ (ft5x06_fw_upgrade chipEraseFail 0x55 [1, 2, 3, 4, 5, 6, 7, 8] 8).2 :=
  ⟨by decide, by decide, by decide⟩

/-- Claim C7, amended: transport results of the erase, length-announce,
program and ECC-verify transfers are ignored — the whole write operation
(result and trace) is unchanged under any modification of the plain-write
results, provided only the `{0x55, 0xAA}` bootloader-enter write (the one
write whose result the C code checks, retrying inside the entry loop) keeps
its result. -/
theorem claim_C7_amended (chip : Chip) (f g : List Nat → Int)
    (h : f [0x55, 0xAA] = g [0x55, 0xAA]) (cid : Nat) (data : List Nat) (L : Nat) :
    ft5x06_fw_upgrade { chip with writeRes := f } cid data L
      = ft5x06_fw_upgrade { chip with writeRes := g } cid data L :=
  fw_upgrade_congr { chip with writeRes := f } { chip with writeRes := g }
    rfl rfl h rfl rfl cid data L

/-- Witness for C7 (amended): failing the erase write is indistinguishable
from not failing it. -/
theorem claim_C7_amended_witness :
    ft5x06_fw_upgrade
        { chipId79_03 with writeRes := fun b => if b = [0x61] then -1 else 0 }
        0x55 [1, 2] 2
      = ft5x06_fw_upgrade { chipId79_03 with writeRes := fun _ => 0 }
          0x55 [1, 2] 2 :=
  claim_C7_amended chipId79_03 (fun b => if b = [0x61] then -1 else 0)
    (fun _ => 0) (by decide) 0x55 [1, 2] 2

/-- Claim C8: in read mode (bootloader entered, transfers succeeding) the
engine issues exactly 256 read packets at offsets 0, 256, …, 65280 — packet
`t` is the four-byte write `{0x03, 0x00, high(256·t) = t, low(256·t) = 0}`
followed by a 256-byte read — writes exactly 256 bytes to the output sink
per packet so that the output is exactly 65536 bytes, and the single raw
byte 0x07 (firmware reset) is the last transaction of the run. -/
theorem claim_C8_read (chip : Chip) (cid : Nat)
    (hinit : (ft5x06_init_upgrade chip cid).1 = 0)
    (hr : ∀ off, 0 ≤ chip.readPktRes off) :
    (ft5x06_fw_read chip cid).1 = 0 ∧
    (ft5x06_fw_read chip cid).2.2.length = 65536 ∧
    (ft5x06_fw_read chip cid).2.1
      = (ft5x06_init_upgrade chip cid).2
        ++ (List.range 256).map (fun t =>
             Tx.rd [0x03, 0x00, t, 0x00] 256
               ((List.range 256).map (fun j => chip.readPktVal (256 * t) j % 256)))
        ++ [Tx.wr [0x07]] ∧
    (ft5x06_fw_read chip cid).2.2
      = ((List.range 256).map (fun t =>
          (List.range 256).map (fun j => chip.readPktVal (256 * t) j % 256))).flatten ∧
    (ft5x06_fw_read chip cid).2.1.getLast? = some (Tx.wr [0x07]) := by
  have hspec := fw_read_spec chip cid hinit hr
  have hmap : (List.range 256).map (fun t =>
      Tx.rd [0x03, 0x00, ((256 * t) >>> 8) % 256, (256 * t) % 256] 256
        ((List.range 256).map (fun j => chip.readPktVal (256 * t) j % 256)))
    = (List.range 256).map (fun t =>
        Tx.rd [0x03, 0x00, t, 0x00] 256
          ((List.range 256).map (fun j => chip.readPktVal (256 * t) j % 256))) := by
    apply List.map_congr_left
    intro t ht
    rw [List.mem_range] at ht
    rw [show ((256 * t) >>> 8) % 256 = t from by
          rw [Nat.shiftRight_eq_div_pow]; norm_num; omega,
        show (256 * t) % 256 = 0 from by omega]
  refine ⟨by rw [hspec], ?_, by rw [hspec, hmap], by rw [hspec], ?_⟩
  · rw [hspec]
    show (((List.range 256).map (fun t => (List.range 256).map
      (fun j => chip.readPktVal (256 * t) j % 256))).flatten).length = 65536
    rw [List.length_flatten, List.map_map]
    have hconst : List.map (List.length ∘ fun t => (List.range 256).map
        (fun j => chip.readPktVal (256 * t) j % 256)) (List.range 256)
      = List.map (fun _ => 256) (List.range 256) := by
      apply List.map_congr_left
      intro t _
      simp
    rw [hconst, List.map_const', List.sum_replicate, List.length_range, smul_eq_mul]
  · rw [hspec]
    show ((ft5x06_init_upgrade chip cid).2 ++ _ ++ [Tx.wr [0x07]]).getLast?
        = some (Tx.wr [0x07])
    exact List.getLast?_concat _

/-- Witness for C8: a chip that answers every read with zeros gives a
successful read of exactly 65536 output bytes. -/
theorem claim_C8_read_witness :
    (ft5x06_fw_read chipId79_03 0x55).1 = 0 ∧
    (ft5x06_fw_read chipId79_03 0x55).2.2.length = 65536 :=
  ⟨(claim_C8_read chipId79_03 0x55 (by decide) (fun _ => le_refl 0)).1,
   (claim_C8_read chipId79_03 0x55 (by decide) (fun _ => le_refl 0)).2.1⟩

/-- Claim C10: when one invocation names both an input image and an output
file, `main` runs the full firmware dump first — to completion, including
its final 0x07 firmware reset — and only then starts the flash: the I²C
trace decomposes as the identification prefix, then the entire read-engine
trace, then the write-engine trace, and the output file holds exactly the
bytes the read engine produced (the pre-update firmware). -/
theorem claim_C10_order (env : Env) (args : List String) (opts : Opts)
    (fin fout : String) (cid : Nat)
    (hp : parseArgs args {} = ParseResult.ok opts)
    (hin : opts.input = some fin) (hout : opts.output = some fout)
    (ho : 0 ≤ env.openRes) (hic : env.ioctlRes = 0)
    (hres : resolveChipId env opts = some cid)
    (hname : (ft5x06_get_name cid).isSome = true)
    (hfw : 0 ≤ env.chip.fwRes) (houtfd : 0 ≤ env.outOpenRes)
    (hinfd : 0 ≤ env.inOpenRes) (hmm : env.mmapOk = true)
    (hinit : (ft5x06_init_upgrade env.chip cid).1 = 0)
    (hr : ∀ off, 0 ≤ env.chip.readPktRes off) :
    (∃ pre, (mainRun env args).trace
        = pre ++ (ft5x06_fw_read env.chip cid).2.1
          ++ (ft5x06_fw_upgrade env.chip cid env.inputData env.inputData.length).2) ∧
    (mainRun env args).fileOut = (ft5x06_fw_read env.chip cid).2.2 ∧
    (ft5x06_fw_read env.chip cid).1 = 0 ∧
    (ft5x06_fw_read env.chip cid).2.1.getLast? = some (Tx.wr [0x07]) := by
  have hread := fw_read_spec env.chip cid hinit hr
  have hnone : (ft5x06_get_name cid).isNone = false := by
    obtain ⟨nm, hnm⟩ := Option.isSome_iff_exists.mp hname
    rw [hnm]
    rfl
  have hmain : mainRun env args
      = mainFlash env opts cid
          (((match opts.chipid with
             | some _ => ([] : List Tx)
             | none => [Tx.rd [0xA3] 1 [env.chip.idVal % 256]])
            ++ [Tx.rd [0xA6] 1 [env.chip.fwVal % 256]])
           ++ (ft5x06_fw_read env.chip cid).2.1)
          (ft5x06_fw_read env.chip cid).2.2 := by
    simp only [mainRun, hp]
    rw [if_neg (by omega), if_neg (by simp [hic])]
    simp only [hres]
    rw [if_neg (by simp [hnone])]
    rw [if_neg (by omega)]
    rw [if_neg (by simp [hin])]
    simp only [hout]
    rw [if_neg (by omega)]
  have hflash : ∀ (t : List Tx) (out : List Nat),
      mainFlash env opts cid t out
        = { exit := 0,
            trace := t ++ (ft5x06_fw_upgrade env.chip cid env.inputData
              env.inputData.length).2,
            fileOut := out } := by
    intro t out
    simp only [mainFlash, hin]
    rw [if_neg (by omega), if_neg (by simp [hmm])]
  refine ⟨?_, ?_, by rw [hread], ?_⟩
  · rw [hmain, hflash]
    exact ⟨_, rfl⟩
  · rw [hmain, hflash]
  · rw [hread]
    show ((ft5x06_init_upgrade env.chip cid).2 ++ _ ++ [Tx.wr [0x07]]).getLast?
        = some (Tx.wr [0x07])
    exact List.getLast?_concat _

/-- Witness for C10: a cooperative environment with both `-i` and `-o`
dumps 65536 bytes before flashing. -/
theorem claim_C10_order_witness :
    (ft5x06_fw_read envBoth.chip 0x55).1 = 0 ∧
    (mainRun envBoth ["-i", "a.bin", "-o", "b.bin"]).fileOut
      = (ft5x06_fw_read envBoth.chip 0x55).2.2 :=
  ⟨(claim_C10_order envBoth ["-i", "a.bin", "-o", "b.bin"]
      { input := some "a.bin", output := some "b.bin" } "a.bin" "b.bin" 0x55
      (by decide) (by decide) (by decide) (by decide) (by decide) (by decide)
      (by decide) (by decide) (by decide) (by decide) (by decide) (by decide)
      (fun _ => le_refl 0)).2.2.1,
   (claim_C10_order envBoth ["-i", "a.bin", "-o", "b.bin"]
      { input := some "a.bin", output := some "b.bin" } "a.bin" "b.bin" 0x55
      (by decide) (by decide) (by decide) (by decide) (by decide) (by decide)
      (by decide) (by decide) (by decide) (by decide) (by decide) (by decide)
      (fun _ => le_refl 0)).2.1⟩
